import Mathlib

/-!
Shallow embedding of the tool-calling orchestration core of the
`workshop-starter-mcp-healthcare` repository:

* `src/bedrock_tool_manager.py` — `BedrockConverseToolManager` (tool registry)
* `src/mcp/bedrock_converse.py` — `BedrockConverse` (conversation driver)

Python dictionaries are modelled as insertion-ordered association lists,
JSON-shaped values as the inductive `Json`, async functions as pure Lean
functions returning `Except` (an exception raised by an executor is the
`Except.error` case, carrying `str(e)`), and the model endpoint as an
oracle function supplied as a parameter.
-/

/-- JSON-shaped Python values: the payloads, schemas and tool inputs the
repository passes around. Objects keep insertion order, as Python dicts do. -/
inductive Json where
  | null : Json
  | bool (b : Bool) : Json
  | num (n : Int) : Json
  | str (s : String) : Json
  | arr (elems : List Json) : Json
  | obj (fields : List (String × Json)) : Json

/-- Lookup in an insertion-ordered association list (Python `d[k]` / `k in d`). -/
def alistLookup {α : Type} : List (String × α) → String → Option α
  | [], _ => none
  | (k, v) :: rest, key => if k = key then some v else alistLookup rest key

/-- Python `d[k] = v`: overwrite in place if the key is present (keeping its
position), otherwise append at the end. -/
def alistSet {α : Type} : List (String × α) → String → α → List (String × α)
  | [], key, v => [(key, v)]
  | (k, x) :: rest, key, v =>
    if k = key then (key, v) :: rest else (k, x) :: alistSet rest key v

/-- Python `k in d`. -/
def hasKey {α : Type} (m : List (String × α)) (k : String) : Bool :=
  (alistLookup m k).isSome

/-- Python `d.setdefault(k, v)`: insert `v` under `k` only when `k` is absent;
a present value is never overwritten. -/
def setdefault {α : Type} (m : List (String × α)) (k : String) (v : α) :
    List (String × α) :=
  if hasKey m k then m else m ++ [(k, v)]

/-! ### Tool registry: `BedrockConverseToolManager` (src/bedrock_tool_manager.py) -/

/-- Result of `execute_tool`: `{"toolUseId": ..., "content": [{"text": ...}], "status": ...}`.
Each entry of `content` is the `text` field of one text block. -/
structure ToolResult where
  toolUseId : String
  content : List String
  status : String
  deriving DecidableEq

/-- A registered tool executor: the `func` passed to `register_tool`.  It is
called as `await tool_func(original_name, payload["input"])`; `Except.ok v`
models normal completion with `str(result) = v`, `Except.error m` models a
raised exception `e` with `str(e) = m`. -/
def Exec : Type := String → Json → Except String String

/-- One entry of `self._tools`:
`{"function": func, "description": ..., "input_schema": ..., "original_name": name}`. -/
structure ToolDef where
  function : Exec
  description : String
  input_schema : List (String × Json)
  original_name : String

/-- The manager state: `self._tools` and `self._name_mapping`, both Python
dicts in insertion order. -/
structure ToolManager where
  tools : List (String × ToolDef)
  name_mapping : List (String × String)

/-- `BedrockConverseToolManager.__init__`: both dicts start empty. -/
def emptyManager : ToolManager := { tools := [], name_mapping := [] }

/-- The key derivation in `register_tool`: `name.replace("-", "_")` — every
hyphen becomes an underscore, all other characters are kept as they are. -/
def sanitize_name (name : String) : String :=
  String.mk (name.data.map (fun c => if c = '-' then '_' else c))

/-- `register_tool(name, func, description, input_schema)`. -/
def register_tool (m : ToolManager) (name : String) (func : Exec)
    (description : String) (input_schema : List (String × Json)) : ToolManager :=
  let sanitized_name := sanitize_name name
  { name_mapping := alistSet m.name_mapping sanitized_name name,
    tools := alistSet m.tools sanitized_name
      { function := func, description := description,
        input_schema := input_schema, original_name := name } }

/-- The three `input_schema["json"].setdefault(...)` lines of `get_tools`,
applied to the object stored under the `"json"` envelope key. -/
def set_schema_defaults (inner : List (String × Json)) : List (String × Json) :=
  setdefault (setdefault (setdefault inner "type" (Json.str "object"))
    "properties" (Json.obj [])) "required" (Json.arr [])

/-- One element of the `tool_specs` list built by `get_tools`. -/
structure ToolSpec where
  name : String
  description : String
  inputSchema : List (String × Json)

/-- The per-tool schema handling of `get_tools`, faithful to Python aliasing:

* if `"json" in input_schema`, the stored dict itself is used, so the
  `setdefault` calls update the stored schema in place and the spec carries
  the very same (updated) dict;
* otherwise a fresh wrapper `{"json": input_schema}` is built, but
  `wrapper["json"]` is still the stored dict, so the `setdefault` calls again
  update the stored schema in place; the wrapper itself is not stored.

Returns `(schema put in the spec, schema left in self._tools)`; `none` models
the `AttributeError` raised when `input_schema["json"]` is not a dict. -/
def processSchema (m : List (String × Json)) :
    Option ((List (String × Json)) × (List (String × Json))) :=
  match alistLookup m "json" with
  | some (Json.obj inner) =>
    let updated := alistSet m "json" (Json.obj (set_schema_defaults inner))
    some (updated, updated)
  | some _ => none
  | none =>
    let inner := set_schema_defaults m
    some ([("json", Json.obj inner)], inner)

/-- The loop of `get_tools` over `self._tools.items()`: produces the spec list
and the (possibly mutated) stored tool dict. -/
def get_tools_aux : List (String × ToolDef) →
    Option (List ToolSpec × List (String × ToolDef))
  | [] => some ([], [])
  | (sanitized_name, tool) :: rest =>
    match processSchema tool.input_schema with
    | none => none
    | some (specSchema, storedSchema) =>
      match get_tools_aux rest with
      | none => none
      | some (specs, rest') =>
        some ({ name := sanitized_name, description := tool.description,
                inputSchema := specSchema } :: specs,
              (sanitized_name, { tool with input_schema := storedSchema }) :: rest')

/-- `get_tools()`: returns `{"tools": tool_specs}` (modelled as the spec list)
together with the manager state after the in-place `setdefault` updates. -/
def get_tools (m : ToolManager) : Option (List ToolSpec × ToolManager) :=
  (get_tools_aux m.tools).map (fun p => (p.1, { m with tools := p.2 }))

/-- Python `str(KeyError(k))` is the key wrapped in single quotes. -/
def keyErrorStr (k : String) : String :=
  String.mk [Char.ofNat 39] ++ k ++ String.mk [Char.ofNat 39]

/-- `_error_response(tool_use_id, error_msg)`. -/
def error_response (tool_use_id : String) (error_msg : String) : ToolResult :=
  { toolUseId := tool_use_id,
    content := ["Error executing tool: " ++ error_msg],
    status := "error" }

/-- The `payload` dict of `execute_tool`, restricted to the three keys the
method reads; `none` models an absent key. -/
structure Payload where
  toolUseId? : Option String
  name? : Option String
  input? : Option Json

/-- Body of `execute_tool` after `payload["toolUseId"]` and `payload["name"]`
have been read successfully: the unknown-tool check runs before the `try`
block, and inside the `try` block both a missing `"input"` key (a `KeyError`,
whose `str` is `"input"` in quotes) and an executor exception are caught by
`except Exception` and turned into `_error_response`. -/
def execute_body (m : ToolManager) (tool_use_id sanitized_name : String)
    (input? : Option Json) : ToolResult :=
  match alistLookup m.tools sanitized_name with
  | none => error_response tool_use_id ("Unknown tool: " ++ sanitized_name)
  | some tool =>
    match input? with
    | none => error_response tool_use_id (keyErrorStr "input")
    | some input =>
      match tool.function tool.original_name input with
      | Except.ok result =>
        { toolUseId := tool_use_id, content := [result], status := "success" }
      | Except.error msg => error_response tool_use_id msg

/-- `execute_tool(payload)`: the two reads `payload["toolUseId"]` and
`payload["name"]` happen before any `try`, so a missing key there raises a
`KeyError` to the caller (`Except.error` with the missing key); everything
afterwards returns a result envelope. -/
def execute_tool (m : ToolManager) (p : Payload) : Except String ToolResult :=
  match p.toolUseId? with
  | none => Except.error "toolUseId"
  | some tool_use_id =>
    match p.name? with
    | none => Except.error "name"
    | some sanitized_name =>
      Except.ok (execute_body m tool_use_id sanitized_name p.input?)

/-! ### Conversation driver: `BedrockConverse` (src/mcp/bedrock_converse.py) -/

/-- One content block of a message.  Bedrock content blocks are single-key
dicts: `{"text": ...}`, `{"toolUse": {"toolUseId", "name", "input"}}` or
`{"toolResult": ...}`; `other` stands for any further block kind. -/
inductive ContentBlock where
  | text (s : String) : ContentBlock
  | toolUse (toolUseId name : String) (input : Json) : ContentBlock
  | toolResult (r : ToolResult) : ContentBlock
  | other : ContentBlock

/-- A conversation message `{"role": ..., "content": [...]}`. -/
structure Message where
  role : String
  content : List ContentBlock

/-- The part of a `converse` API response that `_handle_response` reads:
`response["stopReason"]` and `response["output"]["message"]`. -/
structure ModelResponse where
  stopReason : String
  message : Message

/-- The terminal extraction `response["output"]["message"]["content"][0]["text"]`
with its `except (KeyError, IndexError): return ""` — only the block at index 0
is inspected; an empty content list (`IndexError`) or a first block without a
`"text"` key (`KeyError`) yields the empty string. -/
def firstBlockText : List ContentBlock → String
  | ContentBlock.text s :: _ => s
  | _ => ""

/-- The `tool_use` loop of `_handle_response`: for each content item carrying a
`"toolUse"` key, in order, build `{"toolUseId", "name", "input"}`, call
`execute_tool` on it (all three keys present, so `execute_body` applies), and
append `{"toolResult": result}` to `tool_response`; other items are skipped. -/
def collectToolResults (m : ToolManager) : List ContentBlock → List ContentBlock
  | [] => []
  | ContentBlock.toolUse tid nm inp :: rest =>
    ContentBlock.toolResult (execute_body m tid nm (some inp)) ::
      collectToolResults m rest
  | _ :: rest => collectToolResults m rest

/-- Projection of a content list to its tool-use requests, in order. -/
def toolUseRequests : List ContentBlock → List (String × String × Json)
  | [] => []
  | ContentBlock.toolUse tid nm inp :: rest => (tid, nm, inp) :: toolUseRequests rest
  | _ :: rest => toolUseRequests rest

/-- Modelled from the spec words for claim comparison: "the first text block
of its content", wherever it occurs. -/
def specFirstTextBlock : List ContentBlock → Option String
  | [] => none
  | ContentBlock.text s :: _ => some s
  | _ :: rest => specFirstTextBlock rest

/-- Modelled from the spec words for claim comparison: an identifier-safe
string contains only alphanumeric characters and underscores. -/
def identifierSafe (s : String) : Bool :=
  s.data.all (fun c => c.isAlphanum || c = '_')

/-- `invoke(content)`: append `{"role": "user", "content": content}` to
`self.messages`, call the endpoint (the `model` oracle, which sees the full
history; the request also carries the fixed system prompt, inference config
and `get_tools()` specs, all absorbed into the oracle), then run
`_handle_response` on the result:

* stop reason `end_turn` or `stop_sequence`: append the model message and
  return the index-0 text;
* stop reason `tool_use`: append the model message, execute every tool-use
  block in order, and recurse with the collected `{"toolResult": ...}` blocks
  as the new content;
* any other stop reason: append the model message and return the empty string.

`fuel` bounds the recursion depth (unbounded in Python); `none` means the
fuel ran out before a terminal stop reason was reached.  Returns the final
`self.messages` together with the returned text. -/
def invoke (model : List Message → ModelResponse) (reg : ToolManager) :
    Nat → List Message → List ContentBlock → Option (List Message × String)
  | 0, _, _ => none
  | fuel + 1, msgs, content =>
    let msgs1 := msgs ++ [{ role := "user", content := content }]
    let resp := model msgs1
    let msgs2 := msgs1 ++ [resp.message]
    if resp.stopReason = "end_turn" ∨ resp.stopReason = "stop_sequence" then
      some (msgs2, firstBlockText resp.message.content)
    else if resp.stopReason = "tool_use" then
      invoke model reg fuel msgs2 (collectToolResults reg resp.message.content)
    else
      some (msgs2, "")

/-- `_handle_response(response)` as a standalone step, given the history into
which the response arrives; `invoke` at positive fuel is exactly an appended
user message followed by this step (see `invoke_succ_eq`). -/
def handle_response (model : List Message → ModelResponse) (reg : ToolManager)
    (fuel : Nat) (msgs : List Message) (resp : ModelResponse) :
    Option (List Message × String) :=
  let msgs2 := msgs ++ [resp.message]
  if resp.stopReason = "end_turn" ∨ resp.stopReason = "stop_sequence" then
    some (msgs2, firstBlockText resp.message.content)
  else if resp.stopReason = "tool_use" then
    invoke model reg fuel msgs2 (collectToolResults reg resp.message.content)
  else
    some (msgs2, "")

/-- `invoke_with_prompt(prompt)`: wrap the prompt as `[{"text": prompt}]`. -/
def invoke_with_prompt (model : List Message → ModelResponse) (reg : ToolManager)
    (fuel : Nat) (msgs : List Message) (prompt : String) :
    Option (List Message × String) :=
  invoke model reg fuel msgs [ContentBlock.text prompt]

/-- The interactive loop of `main.py`: one `invoke_with_prompt` per user
prompt, threading `self.messages` between turns. -/
def runSession (model : List Message → ModelResponse) (reg : ToolManager)
    (fuel : Nat) : List String → List Message → Option (List Message)
  | [], msgs => some msgs
  | p :: ps, msgs =>
    match invoke_with_prompt model reg fuel msgs p with
    | none => none
    | some (msgs', _) => runSession model reg fuel ps msgs'

/-! ### Retry loop of `_get_converse_response` -/

/-- An error raised by `self.client.converse`: either the rate-limit-specific
`ThrottlingException` or any other exception. -/
inductive ApiError where
  | throttling (msg : String) : ApiError
  | other (msg : String) : ApiError
  deriving DecidableEq

/-- The `for attempt in range(max_retries)` loop of `_get_converse_response`,
with `remaining = max_retries - attempt` as the structural argument, so
`0 < remaining` after peeling one iteration is exactly the Python guard
`attempt < max_retries - 1`.  `endpoint attempt` is the outcome of the
`self.client.converse(**payload)` call on that attempt; `slept` accumulates
the `time.sleep(retry_delay)` seconds.  The `remaining = 0` case (the loop
body never ran) is unreachable from `get_converse_response`, which starts
with `remaining = 5`.  Returns the outcome together with the total time slept. -/
def converse_loop (endpoint : Nat → Except ApiError ModelResponse) :
    Nat → Nat → Nat → Nat → Except ApiError ModelResponse × Nat
  | 0, _, _, slept => (Except.error (ApiError.other "loop exhausted"), slept)
  | remaining + 1, attempt, retry_delay, slept =>
    match endpoint attempt with
    | Except.ok r => (Except.ok r, slept)
    | Except.error (ApiError.throttling m) =>
      if 0 < remaining then
        converse_loop endpoint remaining (attempt + 1) (retry_delay * 2)
          (slept + retry_delay)
      else
        (Except.error (ApiError.throttling m), slept)
    | Except.error (ApiError.other m) => (Except.error (ApiError.other m), slept)

/-- `_get_converse_response`: `max_retries = 5`, `retry_delay = 1`, starting at
attempt 0 with nothing slept. -/
def get_converse_response (endpoint : Nat → Except ApiError ModelResponse) :
    Except ApiError ModelResponse × Nat :=
  converse_loop endpoint 5 0 1 0

/-! ### Schema well-formedness and the spec-shape predicate -/

/-- A stored schema on which `get_tools` does not raise: if the `"json"` key is
present, its value is a dict (so `.setdefault` exists on it). -/
def wfSchema (m : List (String × Json)) : Bool :=
  match alistLookup m "json" with
  | some (Json.obj _) => true
  | some _ => false
  | none => true

/-- The dict the three defaults are applied to: the value under `"json"` when
the stored schema is already wrapped, the stored schema itself otherwise. -/
def effectiveInner (m : List (String × Json)) : List (String × Json) :=
  match alistLookup m "json" with
  | some (Json.obj inner) => inner
  | _ => m

/-- Relation between a stored input schema `m` and the schema `s` placed in the
produced tool spec: `s` is wrapped under `"json"` exactly when `m` was not
already wrapped (and wrapping adds nothing else, while no wrapping preserves
every top-level key), and under `"json"` the keys `type`, `properties` and
`required` are always present, carrying the caller value whenever one
existed and the default otherwise, with every other key untouched. -/
def specOk (m s : List (String × Json)) : Prop :=
  (hasKey m "json" = false → s.map Prod.fst = ["json"]) ∧
  (hasKey m "json" = true → s.map Prod.fst = m.map Prod.fst ∧
    ∀ k, k ≠ "json" → alistLookup s k = alistLookup m k) ∧
  ∃ inner, alistLookup s "json" = some (Json.obj inner) ∧
    alistLookup inner "type" =
      some ((alistLookup (effectiveInner m) "type").getD (Json.str "object")) ∧
    alistLookup inner "properties" =
      some ((alistLookup (effectiveInner m) "properties").getD (Json.obj [])) ∧
    alistLookup inner "required" =
      some ((alistLookup (effectiveInner m) "required").getD (Json.arr [])) ∧
    ∀ k, k ≠ "type" → k ≠ "properties" → k ≠ "required" →
      alistLookup inner k = alistLookup (effectiveInner m) k

/-! ### Concrete instances used in witnesses and counterexamples -/

/-- An executor that succeeds, echoing the name it was called with. -/
def echoExec : Exec := fun nm _ => Except.ok ("got " ++ nm)

/-- An executor that raises an exception whose message is `boom`. -/
def failExec : Exec := fun _ _ => Except.error "boom"

/-- An executor whose behaviour is irrelevant to the statements using it. -/
def unusedExec : Exec := fun _ _ => Except.ok "unused"

/-- A manager holding the single tool `echo-tool`, stored under `echo_tool`. -/
def mgrEcho : ToolManager := register_tool emptyManager "echo-tool" echoExec "echoes" []

/-- A manager holding the single failing tool `fail`. -/
def mgrFail : ToolManager := register_tool emptyManager "fail" failExec "fails" []

/-- A tool-use response with two tool-use blocks; the second names an
unregistered tool. -/
def respToolUse : ModelResponse :=
  { stopReason := "tool_use",
    message :=
      { role := "assistant",
        content := [ContentBlock.toolUse "id1" "echo_tool" (Json.str "a"),
          ContentBlock.toolUse "id2" "missing" Json.null] } }

/-- A model oracle that always ends the turn with the text `done`. -/
def modelDone : List Message → ModelResponse := fun _ =>
  { stopReason := "end_turn",
    message := { role := "assistant", content := [ContentBlock.text "done"] } }

/-- A terminal response whose first content block is not a text block, while a
text block occurs at index 1. -/
def respMixedTerminal : ModelResponse :=
  { stopReason := "end_turn",
    message :=
      { role := "assistant",
        content := [ContentBlock.toolUse "u1" "t" Json.null,
          ContentBlock.text "hello"] } }

/-- A terminal response whose first content block is the text `hi`. -/
def respTextTerminal : ModelResponse :=
  { stopReason := "stop_sequence",
    message := { role := "assistant", content := [ContentBlock.text "hi"] } }

/-- A response with empty content, used by the retry-loop witness. -/
def respEmpty : ModelResponse :=
  { stopReason := "end_turn", message := { role := "assistant", content := [] } }

/-- Endpoint behaviour: throttled on attempts 0 to 3, success on attempt 4. -/
def epLateSuccess : Nat → Except ApiError ModelResponse := fun i =>
  if i < 4 then Except.error (ApiError.throttling "throttled")
  else Except.ok respEmpty

/-- Endpoint behaviour: throttled on every attempt. -/
def epAllThrottled : Nat → Except ApiError ModelResponse := fun _ =>
  Except.error (ApiError.throttling "throttled")

/-- Endpoint behaviour: a non-rate-limit failure on every attempt. -/
def epOtherFailure : Nat → Except ApiError ModelResponse := fun _ =>
  Except.error (ApiError.other "boom")

/-- A stored schema already wrapped under `json`, with a caller-provided
`type` and an unrelated `extra` key. -/
def schemaWrapped : List (String × Json) :=
  [("json", Json.obj [("type", Json.str "custom"), ("extra", Json.num 1)])]

/-- A stored schema not wrapped under `json`, with a caller-provided
`properties`. -/
def schemaBare : List (String × Json) :=
  [("properties", Json.obj [("x", Json.null)])]

/-- A manager with one wrapped-schema tool and one bare-schema tool. -/
def mgrSpecs : ToolManager :=
  { tools :=
      [("a",
        { function := unusedExec, description := "da",
          input_schema := schemaWrapped, original_name := "a" }),
       ("b",
        { function := unusedExec, description := "db",
          input_schema := schemaBare, original_name := "b" })],
    name_mapping := [("a", "a"), ("b", "b")] }

/-- Schema of tool `a` after one `get_tools` over `mgrSpecs`. -/
def innerA : List (String × Json) :=
  [("type", Json.str "custom"), ("extra", Json.num 1),
   ("properties", Json.obj []), ("required", Json.arr [])]

/-- Schema of tool `b` after one `get_tools` over `mgrSpecs`. -/
def innerB : List (String × Json) :=
  [("properties", Json.obj [("x", Json.null)]), ("type", Json.str "object"),
   ("required", Json.arr [])]

/-- The specs produced by `get_tools mgrSpecs`. -/
def specsAfter : List ToolSpec :=
  [{ name := "a", description := "da", inputSchema := [("json", Json.obj innerA)] },
   { name := "b", description := "db", inputSchema := [("json", Json.obj innerB)] }]

/-- The manager state after `get_tools mgrSpecs`: tool `a` keeps its wrapper,
tool `b` keeps its unwrapped shape, both gain the missing default keys. -/
def mgrSpecsAfter : ToolManager :=
  { tools :=
      [("a",
        { function := unusedExec, description := "da",
          input_schema := [("json", Json.obj innerA)], original_name := "a" }),
       ("b",
        { function := unusedExec, description := "db",
          input_schema := innerB, original_name := "b" })],
    name_mapping := [("a", "a"), ("b", "b")] }

/-- A manager with one tool whose wrapped schema has an empty inner object. -/
def mgrNine : ToolManager :=
  { tools :=
      [("t",
        { function := unusedExec, description := "d",
          input_schema := [("json", Json.obj [])], original_name := "t" })],
    name_mapping := [("t", "t")] }

/-- The inner schema of the `mgrNine` tool after one `get_tools`. -/
def innerNine : List (String × Json) :=
  [("type", Json.str "object"), ("properties", Json.obj []),
   ("required", Json.arr [])]

/-- The specs produced by `get_tools mgrNine`. -/
def specsNine : List ToolSpec :=
  [{ name := "t", description := "d", inputSchema := [("json", Json.obj innerNine)] }]

/-- The manager state after `get_tools mgrNine`. -/
def mgrNineAfter : ToolManager :=
  { tools :=
      [("t",
        { function := unusedExec, description := "d",
          input_schema := [("json", Json.obj innerNine)], original_name := "t" })],
    name_mapping := [("t", "t")] }

/-! ### Association-list lemmas -/

theorem alistLookup_append {α : Type} (a b : List (String × α)) (k : String) :
    alistLookup (a ++ b) k = (alistLookup a k).or (alistLookup b k) := by
  induction a with
  | nil => simp [alistLookup]
  | cons hd tl ih =>
    obtain ⟨k', v⟩ := hd
    by_cases h : k' = k <;> simp [alistLookup, h, ih]

theorem hasKey_eq_false_iff {α : Type} (m : List (String × α)) (k : String) :
    hasKey m k = false ↔ alistLookup m k = none := by
  unfold hasKey
  cases alistLookup m k <;> simp

theorem lookup_setdefault_self {α : Type} (m : List (String × α)) (k : String) (v : α) :
    alistLookup (setdefault m k v) k = some ((alistLookup m k).getD v) := by
  unfold setdefault
  by_cases h : hasKey m k = true
  · obtain ⟨x, hx⟩ := Option.isSome_iff_exists.mp (by simpa [hasKey] using h)
    simp [h, hx]
  · have hn : alistLookup m k = none := (hasKey_eq_false_iff m k).mp (by simpa using h)
    simp [h, alistLookup_append, hn, alistLookup]

theorem lookup_setdefault_ne {α : Type} (m : List (String × α)) (k v) (x : String)
    (h : x ≠ k) : alistLookup (setdefault m k v) x = alistLookup m x := by
  unfold setdefault
  by_cases hk : hasKey m k = true
  · simp [hk]
  · simp [hk, alistLookup_append, alistLookup, h]
    cases alistLookup m x <;> simp [Ne.symm h]

theorem setdefault_of_hasKey {α : Type} (m : List (String × α)) (k v)
    (h : hasKey m k = true) : setdefault m k v = m := by
  simp [setdefault, h]

theorem lookup_alistSet_self {α : Type} (m : List (String × α)) (k : String) (v : α) :
    alistLookup (alistSet m k v) k = some v := by
  induction m with
  | nil => simp [alistSet, alistLookup]
  | cons hd tl ih =>
    obtain ⟨k', x⟩ := hd
    by_cases h : k' = k <;> simp [alistSet, alistLookup, h, ih]

theorem lookup_alistSet_ne {α : Type} (m : List (String × α)) (k v) (x : String)
    (h : x ≠ k) : alistLookup (alistSet m k v) x = alistLookup m x := by
  induction m with
  | nil => simp [alistSet, alistLookup, Ne.symm h]
  | cons hd tl ih =>
    obtain ⟨k', y⟩ := hd
    by_cases hk : k' = k
    · subst hk
      simp [alistSet, alistLookup, Ne.symm h]
    · by_cases hx : k' = x <;> simp [alistSet, alistLookup, hk, hx, ih, h]

theorem alistSet_map_fst {α : Type} (m : List (String × α)) (k : String) (v : α)
    (h : hasKey m k = true) : (alistSet m k v).map Prod.fst = m.map Prod.fst := by
  induction m with
  | nil => simp [hasKey, alistLookup] at h
  | cons hd tl ih =>
    obtain ⟨k', x⟩ := hd
    by_cases hk : k' = k
    · simp [alistSet, hk]
    · have : hasKey tl k = true := by simpa [hasKey, alistLookup, hk] using h
      simp [alistSet, hk, ih this]

theorem alistSet_alistSet {α : Type} (m : List (String × α)) (k : String) (v w : α) :
    alistSet (alistSet m k v) k w = alistSet m k w := by
  induction m with
  | nil => simp [alistSet]
  | cons hd tl ih =>
    obtain ⟨k', x⟩ := hd
    by_cases h : k' = k <;> simp [alistSet, h, ih]

/-! ### Schema-default lemmas -/

theorem lookup_sds_type (m : List (String × Json)) :
    alistLookup (set_schema_defaults m) "type" =
      some ((alistLookup m "type").getD (Json.str "object")) := by
  unfold set_schema_defaults
  rw [lookup_setdefault_ne _ _ _ _ (by decide), lookup_setdefault_ne _ _ _ _ (by decide),
    lookup_setdefault_self]

theorem lookup_sds_properties (m : List (String × Json)) :
    alistLookup (set_schema_defaults m) "properties" =
      some ((alistLookup m "properties").getD (Json.obj [])) := by
  unfold set_schema_defaults
  rw [lookup_setdefault_ne _ _ _ _ (by decide), lookup_setdefault_self,
    lookup_setdefault_ne _ _ _ _ (by decide)]

theorem lookup_sds_required (m : List (String × Json)) :
    alistLookup (set_schema_defaults m) "required" =
      some ((alistLookup m "required").getD (Json.arr [])) := by
  unfold set_schema_defaults
  rw [lookup_setdefault_self, lookup_setdefault_ne _ _ _ _ (by decide),
    lookup_setdefault_ne _ _ _ _ (by decide)]

theorem lookup_sds_other (m : List (String × Json)) (x : String)
    (h1 : x ≠ "type") (h2 : x ≠ "properties") (h3 : x ≠ "required") :
    alistLookup (set_schema_defaults m) x = alistLookup m x := by
  unfold set_schema_defaults
  rw [lookup_setdefault_ne _ _ _ _ h3, lookup_setdefault_ne _ _ _ _ h2,
    lookup_setdefault_ne _ _ _ _ h1]

theorem sds_idem (m : List (String × Json)) :
    set_schema_defaults (set_schema_defaults m) = set_schema_defaults m := by
  have h1 : hasKey (set_schema_defaults m) "type" = true := by
    simp [hasKey, lookup_sds_type]
  have h2 : hasKey (set_schema_defaults m) "properties" = true := by
    simp [hasKey, lookup_sds_properties]
  have h3 : hasKey (set_schema_defaults m) "required" = true := by
    simp [hasKey, lookup_sds_required]
  conv_lhs => rw [set_schema_defaults]
  rw [setdefault_of_hasKey _ _ _ h1, setdefault_of_hasKey _ _ _ h2,
    setdefault_of_hasKey _ _ _ h3]

/-- Core soundness of the per-tool schema handling: on a well-formed stored
schema, `processSchema` succeeds, the produced spec schema satisfies `specOk`,
and running `processSchema` again on the mutated stored schema is a no-op
producing the same spec. -/
theorem processSchema_sound (m : List (String × Json)) (h : wfSchema m = true) :
    ∃ s m', processSchema m = some (s, m') ∧ specOk m s ∧
      processSchema m' = some (s, m') := by
  unfold wfSchema at h
  match hj : alistLookup m "json" with
  | some (Json.obj inner) =>
    refine ⟨alistSet m "json" (Json.obj (set_schema_defaults inner)),
      alistSet m "json" (Json.obj (set_schema_defaults inner)), ?_, ?_, ?_⟩
    · simp [processSchema, hj]
    · refine ⟨?_, ?_, set_schema_defaults inner, ?_, ?_, ?_, ?_, ?_⟩
      · intro hfalse
        simp [hasKey, hj] at hfalse
      · intro _
        exact ⟨alistSet_map_fst _ _ _ (by simp [hasKey, hj]),
          fun k hk => lookup_alistSet_ne _ _ _ _ hk⟩
      · exact lookup_alistSet_self _ _ _
      · rw [lookup_sds_type]
        simp [effectiveInner, hj]
      · rw [lookup_sds_properties]
        simp [effectiveInner, hj]
      · rw [lookup_sds_required]
        simp [effectiveInner, hj]
      · intro k h1 h2 h3
        rw [lookup_sds_other _ _ h1 h2 h3]
        simp [effectiveInner, hj]
    · have hl : alistLookup (alistSet m "json" (Json.obj (set_schema_defaults inner)))
          "json" = some (Json.obj (set_schema_defaults inner)) :=
        lookup_alistSet_self _ _ _
      simp [processSchema, hl, sds_idem, alistSet_alistSet]
  | some Json.null => rw [hj] at h; simp at h
  | some (Json.bool b) => rw [hj] at h; simp at h
  | some (Json.num n) => rw [hj] at h; simp at h
  | some (Json.str s) => rw [hj] at h; simp at h
  | some (Json.arr l) => rw [hj] at h; simp at h
  | none =>
    refine ⟨[("json", Json.obj (set_schema_defaults m))], set_schema_defaults m,
      ?_, ?_, ?_⟩
    · simp [processSchema, hj]
    · refine ⟨fun _ => rfl, ?_, set_schema_defaults m, by simp [alistLookup],
        ?_, ?_, ?_, ?_⟩
      · intro htrue
        simp [hasKey, hj] at htrue
      · rw [lookup_sds_type]
        simp [effectiveInner, hj]
      · rw [lookup_sds_properties]
        simp [effectiveInner, hj]
      · rw [lookup_sds_required]
        simp [effectiveInner, hj]
      · intro k h1 h2 h3
        rw [lookup_sds_other _ _ h1 h2 h3]
        simp [effectiveInner, hj]
    · have hl : alistLookup (set_schema_defaults m) "json" = none := by
        rw [lookup_sds_other _ _ (by decide) (by decide) (by decide), hj]
      simp [processSchema, hl, sds_idem]

/-- Soundness of the `get_tools` loop: on well-formed stored schemas it
succeeds, every spec lines up with its tool (`specOk`), the stored entries
keep their key, executor, description and original name, and a second run on
the mutated store reproduces the same specs without further change. -/
theorem get_tools_aux_sound (tools : List (String × ToolDef))
    (h : ∀ p ∈ tools, wfSchema p.2.input_schema = true) :
    ∃ specs tools', get_tools_aux tools = some (specs, tools') ∧
      List.Forall₂ (fun (p : String × ToolDef) (spec : ToolSpec) =>
        spec.name = p.1 ∧ spec.description = p.2.description ∧
        specOk p.2.input_schema spec.inputSchema) tools specs ∧
      List.Forall₂ (fun (p q : String × ToolDef) =>
        q.1 = p.1 ∧ q.2.function = p.2.function ∧
        q.2.description = p.2.description ∧
        q.2.original_name = p.2.original_name) tools tools' ∧
      get_tools_aux tools' = some (specs, tools') := by
  induction tools with
  | nil => exact ⟨[], [], rfl, List.Forall₂.nil, List.Forall₂.nil, rfl⟩
  | cons hd tl ih =>
    obtain ⟨k, t⟩ := hd
    obtain ⟨s, m', hp, hspec, hp2⟩ :=
      processSchema_sound t.input_schema (h (k, t) (by simp))
    obtain ⟨specs, tools', haux, hf1, hf2, haux2⟩ :=
      ih (fun p hp => h p (by simp [hp]))
    refine ⟨{ name := k, description := t.description, inputSchema := s } :: specs,
      (k, { t with input_schema := m' }) :: tools', ?_, ?_, ?_, ?_⟩
    · simp [get_tools_aux, hp, haux]
    · exact List.Forall₂.cons ⟨rfl, rfl, hspec⟩ hf1
    · exact List.Forall₂.cons ⟨rfl, rfl, rfl, rfl⟩ hf2
    · simp [get_tools_aux, hp2, haux2]

/-! ### Driver lemmas -/

theorem collectToolResults_eq_map (m : ToolManager) (l : List ContentBlock) :
    collectToolResults m l = (toolUseRequests l).map
      (fun r => ContentBlock.toolResult (execute_body m r.1 r.2.1 (some r.2.2))) := by
  induction l with
  | nil => rfl
  | cons b rest ih => cases b <;> simp [collectToolResults, toolUseRequests, ih]

theorem invoke_succ_eq (model : List Message → ModelResponse) (reg : ToolManager)
    (fuel : Nat) (msgs : List Message) (content : List ContentBlock) :
    invoke model reg (fuel + 1) msgs content =
      handle_response model reg fuel (msgs ++ [{ role := "user", content := content }])
        (model (msgs ++ [{ role := "user", content := content }])) := rfl

theorem invoke_no_tool_use (model : List Message → ModelResponse) (reg : ToolManager)
    (fuel : Nat) (msgs : List Message) (content : List ContentBlock)
    (hm : (model (msgs ++ [{ role := "user", content := content }])).stopReason ≠ "tool_use")
    (hf : 0 < fuel) :
    ∃ out, invoke model reg fuel msgs content =
      some (msgs ++ [{ role := "user", content := content },
        (model (msgs ++ [{ role := "user", content := content }])).message], out) := by
  obtain ⟨f, rfl⟩ : ∃ f, fuel = f + 1 := ⟨fuel - 1, by omega⟩
  by_cases hterm : (model (msgs ++ [{ role := "user", content := content }])).stopReason
      = "end_turn" ∨
      (model (msgs ++ [{ role := "user", content := content }])).stopReason
      = "stop_sequence"
  · exact ⟨firstBlockText
        (model (msgs ++ [{ role := "user", content := content }])).message.content,
      by simp [invoke, hterm]⟩
  · exact ⟨"", by simp [invoke, hterm, hm]⟩

/-! ### Retry-loop stepping lemmas -/

theorem converse_loop_ok (endpoint : Nat → Except ApiError ModelResponse)
    (remaining attempt retry_delay slept : Nat) (r : ModelResponse)
    (h : endpoint attempt = Except.ok r) :
    converse_loop endpoint (remaining + 1) attempt retry_delay slept =
      (Except.ok r, slept) := by
  simp [converse_loop, h]

theorem converse_loop_throttle_step (endpoint : Nat → Except ApiError ModelResponse)
    (remaining attempt retry_delay slept : Nat) (m : String)
    (h : endpoint attempt = Except.error (ApiError.throttling m))
    (hr : 0 < remaining) :
    converse_loop endpoint (remaining + 1) attempt retry_delay slept =
      converse_loop endpoint remaining (attempt + 1) (retry_delay * 2)
        (slept + retry_delay) := by
  simp [converse_loop, h, hr]

theorem converse_loop_throttle_end (endpoint : Nat → Except ApiError ModelResponse)
    (attempt retry_delay slept : Nat) (m : String)
    (h : endpoint attempt = Except.error (ApiError.throttling m)) :
    converse_loop endpoint (0 + 1) attempt retry_delay slept =
      (Except.error (ApiError.throttling m), slept) := by
  simp [converse_loop, h]

theorem converse_loop_other (endpoint : Nat → Except ApiError ModelResponse)
    (remaining attempt retry_delay slept : Nat) (m : String)
    (h : endpoint attempt = Except.error (ApiError.other m)) :
    converse_loop endpoint (remaining + 1) attempt retry_delay slept =
      (Except.error (ApiError.other m), slept) := by
  simp [converse_loop, h]

/-! ### Claim theorems -/

/-- C3 counterexample: the stored key is not an identifier-safe sanitization in
which non-identifier characters are replaced — only hyphens are replaced, so a
dot survives into the key; moreover two distinct names that differ only in
hyphen versus underscore collide on the same key. -/
theorem C3_counterexample :
    sanitize_name "get.patient-info" = "get.patient_info" ∧
    identifierSafe (sanitize_name "get.patient-info") = false ∧
    sanitize_name "tool-a" = sanitize_name "tool_a" ∧ "tool-a" ≠ "tool_a" := by
  refine ⟨rfl, by decide, rfl, by decide⟩

/-- C3 (amended): the stored key is the original name with every hyphen
replaced by an underscore, derived deterministically; `execute` called with
the sanitized key invokes the executor that was registered under the
corresponding original name, passing that original name to the executor. -/
theorem C3_sanitize_dispatch (m : ToolManager) (name description : String)
    (func : Exec) (input_schema : List (String × Json)) (tid : String)
    (input : Json) :
    execute_body (register_tool m name func description input_schema) tid
        (sanitize_name name) (some input) =
      match func name input with
      | Except.ok v => { toolUseId := tid, content := [v], status := "success" }
      | Except.error msg => error_response tid msg := by
  have hl : alistLookup (register_tool m name func description input_schema).tools
      (sanitize_name name) =
      some { function := func, description := description,
             input_schema := input_schema, original_name := name } := by
    simp [register_tool, lookup_alistSet_self]
  cases hf : func name input <;> simp [execute_body, hl, hf]

/-- C6: executing an unregistered name returns status `error` with the single
text block `Error executing tool: Unknown tool: <name>` and the request
toolUseId preserved exactly; no exception is thrown. -/
theorem C6_unknown_tool (m : ToolManager) (tid nm : String) (input? : Option Json)
    (h : alistLookup m.tools nm = none) :
    execute_tool m { toolUseId? := some tid, name? := some nm, input? := input? } =
      Except.ok { toolUseId := tid,
                  content := ["Error executing tool: Unknown tool: " ++ nm],
                  status := "error" } := by
  have hs : ("Error executing tool: " : String) ++ ("Unknown tool: " ++ nm) =
      "Error executing tool: Unknown tool: " ++ nm := by
    have hc : ("Error executing tool: " : String) ++ "Unknown tool: " =
        "Error executing tool: Unknown tool: " := rfl
    rw [← String.append_assoc, hc]
  simp [execute_tool, execute_body, h, error_response, hs]

/-- C6 witness: the empty registry on a concrete request. -/
theorem C6_witness :
    execute_tool emptyManager
        { toolUseId? := some "tid-7", name? := some "nope", input? := none } =
      Except.ok { toolUseId := "tid-7",
                  content := ["Error executing tool: Unknown tool: " ++ "nope"],
                  status := "error" } :=
  C6_unknown_tool emptyManager "tid-7" "nope" none rfl

/-- C7: for a registered name, a raising executor yields status `error` with
`Error executing tool: <message>` and the toolUseId preserved, and the
exception never escapes `execute`; a normally completing executor yields
status `success` with the stringified result as the single text block. -/
theorem C7_executor_envelope (m : ToolManager) (tid nm : String) (input : Json)
    (t : ToolDef) (h : alistLookup m.tools nm = some t) :
    (∀ msg, t.function t.original_name input = Except.error msg →
      execute_tool m { toolUseId? := some tid, name? := some nm,
                       input? := some input } =
        Except.ok { toolUseId := tid,
                    content := ["Error executing tool: " ++ msg],
                    status := "error" }) ∧
    (∀ v, t.function t.original_name input = Except.ok v →
      execute_tool m { toolUseId? := some tid, name? := some nm,
                       input? := some input } =
        Except.ok { toolUseId := tid, content := [v], status := "success" }) := by
  constructor <;> intro x hx <;>
    simp [execute_tool, execute_body, h, hx, error_response]

/-- C7 witness: a failing executor and a succeeding executor, both registered. -/
theorem C7_witness :
    execute_tool mgrFail
        { toolUseId? := some "t1", name? := some "fail", input? := some Json.null } =
      Except.ok { toolUseId := "t1",
                  content := ["Error executing tool: " ++ "boom"],
                  status := "error" } ∧
    execute_tool mgrEcho
        { toolUseId? := some "t2", name? := some "echo_tool",
          input? := some Json.null } =
      Except.ok { toolUseId := "t2", content := ["got echo-tool"],
                  status := "success" } := by
  constructor
  · exact (C7_executor_envelope mgrFail "t1" "fail" Json.null
      { function := failExec, description := "fails", input_schema := [],
        original_name := "fail" } rfl).1 "boom" rfl
  · exact (C7_executor_envelope mgrEcho "t2" "echo_tool" Json.null
      { function := echoExec, description := "echoes", input_schema := [],
        original_name := "echo-tool" } rfl).2 "got echo-tool" rfl

/-- C10: the no-escaping-exception guarantee of `execute` only holds once
`toolUseId` and `name` have been read — a payload missing either of those keys
raises a `KeyError` to the caller, while a missing `input` key is read inside
the protected region and becomes the in-band error envelope. -/
theorem C10_guard_boundary (m : ToolManager) (tid nm : String) (t : ToolDef)
    (nm? : Option String) (input? : Option Json)
    (h : alistLookup m.tools nm = some t) :
    execute_tool m { toolUseId? := none, name? := nm?, input? := input? } =
      Except.error "toolUseId" ∧
    execute_tool m { toolUseId? := some tid, name? := none, input? := input? } =
      Except.error "name" ∧
    execute_tool m { toolUseId? := some tid, name? := some nm, input? := none } =
      Except.ok { toolUseId := tid,
                  content := ["Error executing tool: " ++ keyErrorStr "input"],
                  status := "error" } := by
  refine ⟨rfl, rfl, ?_⟩
  simp [execute_tool, execute_body, h, error_response]

/-- C10 witness: concrete payloads against the echo registry. -/
theorem C10_witness :
    execute_tool mgrEcho { toolUseId? := none, name? := some "echo_tool",
                           input? := none } = Except.error "toolUseId" ∧
    execute_tool mgrEcho { toolUseId? := some "t3", name? := none,
                           input? := none } = Except.error "name" ∧
    execute_tool mgrEcho { toolUseId? := some "t3", name? := some "echo_tool",
                           input? := none } =
      Except.ok { toolUseId := "t3",
                  content := ["Error executing tool: " ++ keyErrorStr "input"],
                  status := "error" } :=
  C10_guard_boundary mgrEcho "t3" "echo_tool"
    { function := echoExec, description := "echoes", input_schema := [],
      original_name := "echo-tool" } (some "echo_tool") none rfl

/-- C1: on a tool-use stop condition, response handling appends the model
message to history, calls execute once per tool-use block in the order the
blocks appear, collects exactly one tool-result block per request in the same
order into a single continuation turn, and recursively re-invokes the model
with that turn as the new content. -/
theorem C1_tool_use_dispatch (model : List Message → ModelResponse)
    (reg : ToolManager) (fuel : Nat) (msgs : List Message) (resp : ModelResponse)
    (h : resp.stopReason = "tool_use") :
    handle_response model reg fuel msgs resp =
      invoke model reg fuel (msgs ++ [resp.message])
        ((toolUseRequests resp.message.content).map
          (fun r => ContentBlock.toolResult (execute_body reg r.1 r.2.1 (some r.2.2)))) := by
  simp [handle_response, h, collectToolResults_eq_map]

/-- C1 witness: two tool-use blocks produce two tool-result blocks in request
order inside one continuation turn, after which the model is invoked once more
and ends the conversation. -/
theorem C1_witness :
    handle_response modelDone mgrEcho 1 [] respToolUse =
      some ([respToolUse.message,
        { role := "user",
          content := [ContentBlock.toolResult
              { toolUseId := "id1", content := ["got echo-tool"],
                status := "success" },
            ContentBlock.toolResult
              { toolUseId := "id2",
                content := ["Error executing tool: Unknown tool: missing"],
                status := "error" }] },
        (modelDone []).message], "done") := by
  rw [C1_tool_use_dispatch modelDone mgrEcho 1 [] respToolUse rfl]
  rfl

/-- C4 counterexample: on a terminal stop condition the code inspects only the
content block at index 0, so a text block at a later position is not returned
even though the spec first-text-block rule would return it. -/
theorem C4_counterexample :
    specFirstTextBlock respMixedTerminal.message.content = some "hello" ∧
    handle_response (fun _ => respMixedTerminal) emptyManager 0 [] respMixedTerminal
      ≠ some ([respMixedTerminal.message], "hello") ∧
    handle_response (fun _ => respMixedTerminal) emptyManager 0 [] respMixedTerminal
      = some ([respMixedTerminal.message], "") := by
  refine ⟨rfl, ?_, rfl⟩
  intro hcontra
  have hsnd := congrArg (Option.map (fun p : List Message × String => p.2)) hcontra
  exact absurd (show (some "" : Option String) = some "hello" from hsnd) (by simp)

/-- C4 (amended): on a terminal stop condition, response handling appends the
model message to history and returns the text of the content block at index 0
when that block is a text block; in every other case — including a text block
occurring only at a later index — it returns the empty string. -/
theorem C4_terminal_first_block (model : List Message → ModelResponse)
    (reg : ToolManager) (fuel : Nat) (msgs : List Message) (resp : ModelResponse)
    (h : resp.stopReason = "end_turn" ∨ resp.stopReason = "stop_sequence") :
    handle_response model reg fuel msgs resp =
      some (msgs ++ [resp.message], firstBlockText resp.message.content) ∧
    (∀ s rest, resp.message.content = ContentBlock.text s :: rest →
      firstBlockText resp.message.content = s) ∧
    ((∀ s rest, resp.message.content ≠ ContentBlock.text s :: rest) →
      firstBlockText resp.message.content = "") := by
  refine ⟨?_, ?_, ?_⟩
  · rcases h with h | h <;> simp [handle_response, h]
  · intro s rest hc
    rw [hc]
    rfl
  · intro hne
    match hc : resp.message.content with
    | [] => rfl
    | ContentBlock.text s :: rest => exact absurd hc (hne s rest)
    | ContentBlock.toolUse a b c :: rest => rfl
    | ContentBlock.toolResult r :: rest => rfl
    | ContentBlock.other :: rest => rfl

/-- C4 witness: a terminal response whose first block is the text `hi` returns
exactly `hi` and appends the message to history. -/
theorem C4_witness :
    handle_response modelDone emptyManager 0 [] respTextTerminal =
      some ([respTextTerminal.message], "hi") :=
  (C4_terminal_first_block modelDone emptyManager 0 [] respTextTerminal
    (Or.inr rfl)).1

/-- C5: on any registry whose stored schemas are well formed, `get_tools`
succeeds and every produced spec carries the tool key and description and a
schema that is wrapped under the `json` envelope exactly when the stored
schema was not already wrapped, always contains `type`, `properties` and
`required`, fills each of the three with its default only where absent, and
never overwrites a caller-provided value (see `specOk`). -/
theorem C5_spec_defaults (m : ToolManager)
    (h : ∀ p ∈ m.tools, wfSchema p.2.input_schema = true) :
    (get_tools m).isSome = true ∧
    ∀ specs m', get_tools m = some (specs, m') →
      List.Forall₂ (fun (p : String × ToolDef) (spec : ToolSpec) =>
        spec.name = p.1 ∧ spec.description = p.2.description ∧
        specOk p.2.input_schema spec.inputSchema) m.tools specs := by
  obtain ⟨specs, tools', haux, hf1, _, _⟩ := get_tools_aux_sound m.tools h
  constructor
  · simp [get_tools, haux]
  · intro specs0 m0 hget
    have : specs0 = specs := by
      simp [get_tools, haux] at hget
      exact hget.1.symm
    exact this ▸ hf1

/-- C5 witness: a wrapped schema with a caller-provided `type` and a bare
schema with a caller-provided `properties`, both through `get_tools`. -/
theorem C5_witness :
    List.Forall₂ (fun (p : String × ToolDef) (spec : ToolSpec) =>
      spec.name = p.1 ∧ spec.description = p.2.description ∧
      specOk p.2.input_schema spec.inputSchema) mgrSpecs.tools specsAfter :=
  (C5_spec_defaults mgrSpecs (by decide)).2 specsAfter mgrSpecsAfter rfl

/-- C9 counterexample: `get_tools` is not a pure projection — it mutates the
stored input schema in place: the stored schema of the `mgrNine` tool has no
`type` key before the call and carries one afterwards. -/
theorem C9_counterexample :
    mgrNine.tools.map (fun q => hasKey (effectiveInner q.2.input_schema) "type")
      = [false] ∧
    (get_tools mgrNine).map
        (fun p => p.2.tools.map
          (fun q => hasKey (effectiveInner q.2.input_schema) "type")) =
      some [true] ∧
    ¬ (get_tools mgrNine).map (fun p => p.2.tools.map (fun q => q.2.input_schema))
      = some (mgrNine.tools.map (fun q => q.2.input_schema)) := by
  refine ⟨by decide, by decide, ?_⟩
  intro hcontra
  have hkeys := congrArg
    (Option.map (List.map
      (fun s : List (String × Json) => hasKey (effectiveInner s) "type"))) hcontra
  have h1 : Option.map (List.map
        (fun s : List (String × Json) => hasKey (effectiveInner s) "type"))
      ((get_tools mgrNine).map (fun p => p.2.tools.map (fun q => q.2.input_schema)))
      = some [true] := by decide
  have h2 : Option.map (List.map
        (fun s : List (String × Json) => hasKey (effectiveInner s) "type"))
      (some (mgrNine.tools.map (fun q => q.2.input_schema))) = some [false] := by
    decide
  exact absurd (h1.symm.trans (hkeys.trans h2)) (by decide)

/-- C9 (amended): `get_tools` computes the spec list fresh from the current
registrations on every call and preserves each tool key, executor,
description and original name, but it updates each stored input schema in
place, inserting the missing default keys; the update is idempotent — an
immediately repeated call returns the same specs and changes nothing further. -/
theorem C9_idempotent_projection (m : ToolManager)
    (h : ∀ p ∈ m.tools, wfSchema p.2.input_schema = true) :
    (get_tools m).isSome = true ∧
    ∀ specs m', get_tools m = some (specs, m') →
      List.Forall₂ (fun (p q : String × ToolDef) =>
        q.1 = p.1 ∧ q.2.function = p.2.function ∧
        q.2.description = p.2.description ∧
        q.2.original_name = p.2.original_name) m.tools m'.tools ∧
      get_tools m' = some (specs, m') := by
  obtain ⟨specs, tools', haux, _, hf2, haux2⟩ := get_tools_aux_sound m.tools h
  constructor
  · simp [get_tools, haux]
  · intro specs0 m0 hget
    simp [get_tools, haux] at hget
    obtain ⟨hspecs, hm0⟩ := hget
    subst hspecs
    constructor
    · rw [← hm0]
      exact hf2
    · rw [← hm0]
      simp [get_tools, haux2]

/-- C9 witness: a second `get_tools` over the already-mutated `mgrNine` state
returns the same specs and leaves the state fixed. -/
theorem C9_witness : get_tools mgrNineAfter = some (specsNine, mgrNineAfter) :=
  ((C9_idempotent_projection mgrNine (by decide)).2 specsNine mgrNineAfter rfl).2

/-- C2: the endpoint call is retried on throttling errors up to 5 attempts
with exponential backoff 1, 2, 4, 8: throttled attempts 1–4 followed by a
success yield the response with a total delay of 15 time-units; five throttled
attempts propagate the final throttling error after the same 15 time-units of
backoff; a non-rate-limit error on any attempt propagates immediately, adding
no further delay. -/
theorem C2_retry_policy (endpoint : Nat → Except ApiError ModelResponse)
    (tm : Nat → String) :
    (∀ r, (∀ i, i < 4 → endpoint i = Except.error (ApiError.throttling (tm i))) →
      endpoint 4 = Except.ok r →
      get_converse_response endpoint = (Except.ok r, 15)) ∧
    ((∀ i, i < 5 → endpoint i = Except.error (ApiError.throttling (tm i))) →
      get_converse_response endpoint =
        (Except.error (ApiError.throttling (tm 4)), 15)) ∧
    (∀ k msg, k < 5 →
      (∀ i, i < k → endpoint i = Except.error (ApiError.throttling (tm i))) →
      endpoint k = Except.error (ApiError.other msg) →
      get_converse_response endpoint =
        (Except.error (ApiError.other msg), 2 ^ k - 1)) := by
  refine ⟨?_, ?_, ?_⟩
  · intro r hthr hok
    calc get_converse_response endpoint
        = converse_loop endpoint 5 0 1 0 := rfl
      _ = converse_loop endpoint 4 1 2 1 :=
        converse_loop_throttle_step endpoint 4 0 1 0 (tm 0) (hthr 0 (by omega))
          (by omega)
      _ = converse_loop endpoint 3 2 4 3 :=
        converse_loop_throttle_step endpoint 3 1 2 1 (tm 1) (hthr 1 (by omega))
          (by omega)
      _ = converse_loop endpoint 2 3 8 7 :=
        converse_loop_throttle_step endpoint 2 2 4 3 (tm 2) (hthr 2 (by omega))
          (by omega)
      _ = converse_loop endpoint 1 4 16 15 :=
        converse_loop_throttle_step endpoint 1 3 8 7 (tm 3) (hthr 3 (by omega))
          (by omega)
      _ = (Except.ok r, 15) := converse_loop_ok endpoint 0 4 16 15 r hok
  · intro hthr
    calc get_converse_response endpoint
        = converse_loop endpoint 5 0 1 0 := rfl
      _ = converse_loop endpoint 4 1 2 1 :=
        converse_loop_throttle_step endpoint 4 0 1 0 (tm 0) (hthr 0 (by omega))
          (by omega)
      _ = converse_loop endpoint 3 2 4 3 :=
        converse_loop_throttle_step endpoint 3 1 2 1 (tm 1) (hthr 1 (by omega))
          (by omega)
      _ = converse_loop endpoint 2 3 8 7 :=
        converse_loop_throttle_step endpoint 2 2 4 3 (tm 2) (hthr 2 (by omega))
          (by omega)
      _ = converse_loop endpoint 1 4 16 15 :=
        converse_loop_throttle_step endpoint 1 3 8 7 (tm 3) (hthr 3 (by omega))
          (by omega)
      _ = (Except.error (ApiError.throttling (tm 4)), 15) :=
        converse_loop_throttle_end endpoint 4 16 15 (tm 4) (hthr 4 (by omega))
  · intro k msg hk hthr hother
    interval_cases k
    · exact converse_loop_other endpoint 4 0 1 0 msg hother
    · calc get_converse_response endpoint
          = converse_loop endpoint 4 1 2 1 :=
          converse_loop_throttle_step endpoint 4 0 1 0 (tm 0) (hthr 0 (by omega))
            (by omega)
        _ = (Except.error (ApiError.other msg), 1) :=
          converse_loop_other endpoint 3 1 2 1 msg hother
    · calc get_converse_response endpoint
          = converse_loop endpoint 4 1 2 1 :=
          converse_loop_throttle_step endpoint 4 0 1 0 (tm 0) (hthr 0 (by omega))
            (by omega)
        _ = converse_loop endpoint 3 2 4 3 :=
          converse_loop_throttle_step endpoint 3 1 2 1 (tm 1) (hthr 1 (by omega))
            (by omega)
        _ = (Except.error (ApiError.other msg), 3) :=
          converse_loop_other endpoint 2 2 4 3 msg hother
    · calc get_converse_response endpoint
          = converse_loop endpoint 4 1 2 1 :=
          converse_loop_throttle_step endpoint 4 0 1 0 (tm 0) (hthr 0 (by omega))
            (by omega)
        _ = converse_loop endpoint 3 2 4 3 :=
          converse_loop_throttle_step endpoint 3 1 2 1 (tm 1) (hthr 1 (by omega))
            (by omega)
        _ = converse_loop endpoint 2 3 8 7 :=
          converse_loop_throttle_step endpoint 2 2 4 3 (tm 2) (hthr 2 (by omega))
            (by omega)
        _ = (Except.error (ApiError.other msg), 7) :=
          converse_loop_other endpoint 1 3 8 7 msg hother
    · calc get_converse_response endpoint
          = converse_loop endpoint 4 1 2 1 :=
          converse_loop_throttle_step endpoint 4 0 1 0 (tm 0) (hthr 0 (by omega))
            (by omega)
        _ = converse_loop endpoint 3 2 4 3 :=
          converse_loop_throttle_step endpoint 3 1 2 1 (tm 1) (hthr 1 (by omega))
            (by omega)
        _ = converse_loop endpoint 2 3 8 7 :=
          converse_loop_throttle_step endpoint 2 2 4 3 (tm 2) (hthr 2 (by omega))
            (by omega)
        _ = converse_loop endpoint 1 4 16 15 :=
          converse_loop_throttle_step endpoint 1 3 8 7 (tm 3) (hthr 3 (by omega))
            (by omega)
        _ = (Except.error (ApiError.other msg), 15) :=
          converse_loop_other endpoint 0 4 16 15 msg hother

/-- C2 witness: the three scenarios at concrete endpoints — throttled four
times then success, throttled five times, and an immediate non-rate-limit
failure. -/
theorem C2_witness :
    get_converse_response epLateSuccess = (Except.ok respEmpty, 15) ∧
    get_converse_response epAllThrottled =
      (Except.error (ApiError.throttling "throttled"), 15) ∧
    get_converse_response epOtherFailure =
      (Except.error (ApiError.other "boom"), 2 ^ 0 - 1) := by
  refine ⟨?_, ?_, ?_⟩
  · exact (C2_retry_policy epLateSuccess (fun _ => "throttled")).1 respEmpty
      (by intro i hi; interval_cases i <;> rfl) rfl
  · exact (C2_retry_policy epAllThrottled (fun _ => "throttled")).2.1
      (by intro i hi; rfl)
  · exact (C2_retry_policy epOtherFailure (fun _ => "throttled")).2.2 0 "boom"
      (by omega) (by intro i hi; omega) rfl

/-- C8: history is append-only and grows monotonically — every invocation
appends exactly one user message before calling the model and, when the
response requests no tool use, exactly one assistant message after it; a
session of N prompts in which every response is free of tool use therefore
ends with the initial history extended by exactly 2N messages. -/
theorem C8_history_growth (model : List Message → ModelResponse)
    (reg : ToolManager) (fuel : Nat) (prompts : List String) (init : List Message)
    (hm : ∀ hist, (model hist).stopReason ≠ "tool_use") (hf : 0 < fuel) :
    (∀ msgs content, ∃ out, invoke model reg fuel msgs content =
      some (msgs ++ [{ role := "user", content := content },
        (model (msgs ++ [{ role := "user", content := content }])).message], out)) ∧
    (runSession model reg fuel prompts init).isSome = true ∧
    ∀ final, runSession model reg fuel prompts init = some final →
      final.length = init.length + 2 * prompts.length ∧ ∃ t, final = init ++ t := by
  have hstep : ∀ msgs content, ∃ out, invoke model reg fuel msgs content =
      some (msgs ++ [{ role := "user", content := content },
        (model (msgs ++ [{ role := "user", content := content }])).message], out) :=
    fun msgs content => invoke_no_tool_use model reg fuel msgs content (hm _) hf
  refine ⟨hstep, ?_⟩
  induction prompts generalizing init with
  | nil =>
    refine ⟨rfl, ?_⟩
    intro final hfin
    simp [runSession] at hfin
    subst hfin
    exact ⟨by simp, [], by simp⟩
  | cons p ps ih =>
    obtain ⟨out, hout⟩ := hstep init [ContentBlock.text p]
    set u : Message := { role := "user", content := [ContentBlock.text p] }
    set a : Message := (model (init ++ [u])).message
    have hrun : runSession model reg fuel (p :: ps) init =
        runSession model reg fuel ps (init ++ [u, a]) := by
      simp [runSession, invoke_with_prompt, hout]
    obtain ⟨hsome, hrest⟩ := ih (init ++ [u, a])
    refine ⟨by rw [hrun]; exact hsome, ?_⟩
    intro final hfin
    rw [hrun] at hfin
    obtain ⟨hlen, t, ht⟩ := hrest final hfin
    refine ⟨?_, ?_⟩
    · rw [hlen]
      simp
      omega
    · exact ⟨[u, a] ++ t, by rw [ht]; simp⟩

/-- C8 witness: two prompts against a model that never requests tool use leave
the session history defined, with four messages — two per prompt. -/
theorem C8_witness :
    (runSession modelDone emptyManager 1 ["p1", "p2"] []).isSome = true ∧
    ∀ final, runSession modelDone emptyManager 1 ["p1", "p2"] [] = some final →
      final.length =
        ([] : List Message).length + 2 * (["p1", "p2"] : List String).length ∧
      ∃ t, final = [] ++ t :=
  (C8_history_growth modelDone emptyManager 1 ["p1", "p2"] []
    (fun hist => by simp [modelDone]) (by omega)).2

/-- C3 witness: registering `echo-tool` stores it under `echo_tool`, and
executing with the sanitized key reaches the executor with the original
hyphenated name. -/
theorem C3_witness :
    execute_body mgrEcho "t0" (sanitize_name "echo-tool") (some Json.null) =
      { toolUseId := "t0", content := ["got echo-tool"], status := "success" } :=
  (C3_sanitize_dispatch emptyManager "echo-tool" "echoes" echoExec [] "t0"
    Json.null).trans rfl
